import Mathlib

/-!
Verification of the NL minimum-wage tracker pipeline.

Shallow embedding of the data-reconciliation and derived-metrics code of
the repository (app.py, mw_tracker/nl_mw_tracker.py,
mw_tracker/create_mw_archive.py, mw_tracker/fetch_indices.py).

Nullable numeric table cells (pandas float columns with NaN) are modelled
as `Option ℚ` (`none` = NaN/null); arithmetic on cells propagates `none`
the way pandas propagates NaN.
-/

namespace MWTracker

/-- A nullable numeric cell of a pandas float column; `none` models NaN. -/
abbrev Cell := Option ℚ

/-- NaN-propagating subtraction on cells. -/
def osub : Cell → Cell → Cell
  | some a, some b => some (a - b)
  | _, _ => none

/-- NaN-propagating multiplication on cells. -/
def omul : Cell → Cell → Cell
  | some a, some b => some (a * b)
  | _, _ => none

/-- NaN-propagating division on cells (the guarded uses below never divide
by a literal zero on the sides a claim compares). -/
def odiv : Cell → Cell → Cell
  | some a, some b => some (a / b)
  | _, _ => none

/-- pandas `Series.combine_first` on a single cell: the primary value when
non-null, else the fallback value. -/
def combineFirst (p f : Cell) : Cell :=
  match p with
  | some v => some v
  | none => f

/-- The `Period` column: the pipeline only ever produces January and July. -/
inductive Period where
  | January
  | July
deriving DecidableEq

/-- Month number used to build the `Date` column:
`month_map = {"January": "01", "July": "07"}` (app.py line 137). -/
def Period.month : Period → ℕ
  | .January => 1
  | .July => 7

/-- A row of the merged table produced by `load_data` (wage archive
left-joined with the index table on (Year, Period)). -/
structure Row where
  year : ℕ
  period : Period
  age : String
  isAdult : Bool
  hourly36 : Cell
  hourly38 : Cell
  hourly40 : Cell
  hourlyStatutory : Cell
  monthly_cao : Cell
  monthly_cpi : Cell
  yearly_cao : Cell
  yearly_cpi : Cell
deriving DecidableEq

/-- Sort key for the `Date` column computed from (Year, Period):
`Date = Year-month-01`, so chronological order is lexicographic on
(year, month). -/
def dateKey (r : Row) : ℕ := r.year * 100 + r.period.month

/-- The pre-2024 hourly basis chosen in the UI: `hour_basis ∈ {36, 38, 40}`
(app.py line 201). -/
inductive Basis where
  | h36
  | h38
  | h40
deriving DecidableEq

/-- The column `Hourly_{hour_basis}h` selected by the chosen basis. -/
def hourlyBasis : Basis → Row → Cell
  | .h36 => Row.hourly36
  | .h38 => Row.hourly38
  | .h40 => Row.hourly40

/-- `df['NominalWage'] = np.where(df['Year'] < 2024, df[pre_2024_col],
df['Hourly_Statutory'])` (app.py line 239). -/
def nominalWage (b : Basis) (r : Row) : Cell :=
  if r.year < 2024 then hourlyBasis b r else r.hourlyStatutory

/-- The deflator selection `DEFLATOR_KEYS = ["None", "M_CPI", "M_CAO",
"Y_CPI", "Y_CAO"]` (app.py line 12). -/
inductive Deflator where
  | None
  | M_CPI
  | M_CAO
  | Y_CPI
  | Y_CAO
deriving DecidableEq

/-- `col_map` (app.py lines 248-253): (primary column, fallback column)
per deflator key.  The app consults `col_map` only when the deflator is
not "None" (the Python dict has no "None" key), so the `.None` line below
is never reached by `displayWage`. -/
def colMap : Deflator → (Row → Cell) × (Row → Cell)
  | .M_CPI => (Row.monthly_cpi, Row.yearly_cpi)
  | .M_CAO => (Row.monthly_cao, Row.yearly_cao)
  | .Y_CPI => (Row.yearly_cpi, Row.yearly_cpi)
  | .Y_CAO => (Row.yearly_cao, Row.yearly_cao)
  | .None => (fun _ => none, fun _ => none)

/-- `df['Effective_Index'] = df[p_col].combine_first(df[f_col])`
(app.py line 256). -/
def effectiveIndex (d : Deflator) (r : Row) : Cell :=
  combineFirst ((colMap d).1 r) ((colMap d).2 r)

/-- `current_index = df['Effective_Index'].iloc[-1]` (app.py line 259):
the effective index of the last row of the (Date-sorted) table. -/
def currentIndex (d : Deflator) (rows : List Row) : Cell :=
  match rows.getLast? with
  | some r => effectiveIndex d r
  | none => none

/-- The `DisplayWage` computation of app.py lines 243-266: identity for
deflator "None"; otherwise `NominalWage / (Effective_Index / current_index)`
when `pd.notna(current_index) and current_index != 0`, else the fallback
`NominalWage / (Effective_Index / 100)`. -/
def displayWage (d : Deflator) (b : Basis) (rows : List Row) (r : Row) : Cell :=
  match d with
  | .None => nominalWage b r
  | _ =>
    match currentIndex d rows with
    | some c =>
      if c ≠ 0 then odiv (nominalWage b r) (odiv (effectiveIndex d r) (some c))
      else odiv (nominalWage b r) (odiv (effectiveIndex d r) (some 100))
    | none => odiv (nominalWage b r) (odiv (effectiveIndex d r) (some 100))

lemma displayWage_of_ne_none (d : Deflator) (hd : d ≠ Deflator.None)
    (b : Basis) (rows : List Row) (r : Row) :
    displayWage d b rows r =
      match currentIndex d rows with
      | some c =>
        if c ≠ 0 then odiv (nominalWage b r) (odiv (effectiveIndex d r) (some c))
        else odiv (nominalWage b r) (odiv (effectiveIndex d r) (some 100))
      | none => odiv (nominalWage b r) (odiv (effectiveIndex d r) (some 100)) := by
  cases d
  · exact absurd rfl hd
  all_goals rfl

lemma odiv_odiv_eq_omul_odiv (n e : Cell) (c : ℚ) :
    odiv n (odiv e (some c)) = odiv (omul n (some c)) e := by
  cases n with
  | none => cases e <;> rfl
  | some a =>
    cases e with
    | none => rfl
    | some b =>
      simp only [odiv, omul, Option.some.injEq]
      exact div_div_eq_mul_div a b c

lemma odiv_cancel_one (n : Cell) (c : ℚ) (hc : c ≠ 0) :
    odiv n (odiv (some c) (some c)) = n := by
  cases n with
  | none => rfl
  | some a =>
    simp only [odiv, div_self hc, div_one]

lemma sorted_dateKey_le_getLast (l : List Row)
    (hs : l.Sorted (fun a b => dateKey a ≤ dateKey b)) (z : Row)
    (hz : l.getLast? = some z) : ∀ x ∈ l, dateKey x ≤ dateKey z := by
  induction l with
  | nil => simp at hz
  | cons a t ih =>
    cases t with
    | nil =>
      simp only [List.getLast?_singleton, Option.some.injEq] at hz
      intro x hx
      simp only [List.mem_singleton] at hx
      subst hx; subst hz; exact le_refl _
    | cons b u =>
      rw [List.getLast?_cons_cons] at hz
      have hs' := (List.sorted_cons.mp hs)
      have hrec := ih hs'.2 hz
      intro x hx
      rcases List.mem_cons.mp hx with hxa | hxt
      · subst hxa
        have hb : dateKey x ≤ dateKey b := hs'.1 b (List.mem_cons_self b u)
        have hbz : dateKey b ≤ dateKey z := hrec b (List.mem_cons_self b u)
        exact le_trans hb hbz
      · exact hrec x hxt

end MWTracker

namespace MWTracker

/-- Concrete merged row for 2023-January (pre-2024 regime), used to
instantiate proved theorems at a checkable input. -/
def sampleOldRow : Row :=
  { year := 2023, period := Period.January, age := "21+", isAdult := true,
    hourly36 := some (1185/100), hourly38 := some (1123/100),
    hourly40 := some (1066/100), hourlyStatutory := none,
    monthly_cao := none, monthly_cpi := some 100,
    yearly_cao := some 99, yearly_cpi := some 98 }

/-- Concrete merged row for 2025-January (2024+ regime), used to
instantiate proved theorems at a checkable input. -/
def sampleIdxRow : Row :=
  { year := 2025, period := Period.January, age := "21+", isAdult := true,
    hourly36 := none, hourly38 := none, hourly40 := none,
    hourlyStatutory := some (1406/100),
    monthly_cao := some 120, monthly_cpi := some 110,
    yearly_cao := some 118, yearly_cpi := some 108 }

/-- Claim C1: for every deflator other than None, the effective index of a
row is the primary column when non-null else the fallback column, with
pairs M_CPI→(monthly_cpi, yearly_cpi), M_CAO→(monthly_cao, yearly_cao),
Y_CPI→(yearly_cpi, yearly_cpi), Y_CAO→(yearly_cao, yearly_cao);
current_index is the effective index of the chronologically last row of the
Date-sorted table; when current_index is non-null and non-zero every row's
DisplayWage equals NominalWage × current_index / effective_index, and
otherwise DisplayWage equals NominalWage / (effective_index / 100). -/
theorem deflation_effective_index_and_rebase (b : Basis) (rows : List Row) (r : Row) :
    ((r.monthly_cpi.isSome → effectiveIndex Deflator.M_CPI r = r.monthly_cpi) ∧
     (r.monthly_cpi = none → effectiveIndex Deflator.M_CPI r = r.yearly_cpi)) ∧
    ((r.monthly_cao.isSome → effectiveIndex Deflator.M_CAO r = r.monthly_cao) ∧
     (r.monthly_cao = none → effectiveIndex Deflator.M_CAO r = r.yearly_cao)) ∧
    ((r.yearly_cpi.isSome → effectiveIndex Deflator.Y_CPI r = r.yearly_cpi) ∧
     (r.yearly_cpi = none → effectiveIndex Deflator.Y_CPI r = r.yearly_cpi)) ∧
    ((r.yearly_cao.isSome → effectiveIndex Deflator.Y_CAO r = r.yearly_cao) ∧
     (r.yearly_cao = none → effectiveIndex Deflator.Y_CAO r = r.yearly_cao)) ∧
    (∀ d : Deflator, d ≠ Deflator.None →
      (∀ rl : Row, rows.Sorted (fun a b => dateKey a ≤ dateKey b) →
        rows.getLast? = some rl →
        currentIndex d rows = effectiveIndex d rl ∧
        ∀ x ∈ rows, dateKey x ≤ dateKey rl) ∧
      (∀ c : ℚ, currentIndex d rows = some c → c ≠ 0 →
        displayWage d b rows r =
          odiv (omul (nominalWage b r) (some c)) (effectiveIndex d r)) ∧
      ((currentIndex d rows = none ∨ currentIndex d rows = some 0) →
        displayWage d b rows r =
          odiv (nominalWage b r) (odiv (effectiveIndex d r) (some 100)))) := by
  refine ⟨⟨?_, ?_⟩, ⟨?_, ?_⟩, ⟨?_, ?_⟩, ⟨?_, ?_⟩, ?_⟩
  · intro h
    cases hm : r.monthly_cpi with
    | none => rw [hm] at h; simp at h
    | some v => simp [effectiveIndex, colMap, combineFirst, hm]
  · intro h; simp [effectiveIndex, colMap, combineFirst, h]
  · intro h
    cases hm : r.monthly_cao with
    | none => rw [hm] at h; simp at h
    | some v => simp [effectiveIndex, colMap, combineFirst, hm]
  · intro h; simp [effectiveIndex, colMap, combineFirst, h]
  · intro h
    cases hm : r.yearly_cpi with
    | none => rw [hm] at h; simp at h
    | some v => simp [effectiveIndex, colMap, combineFirst, hm]
  · intro h; simp [effectiveIndex, colMap, combineFirst, h]
  · intro h
    cases hm : r.yearly_cao with
    | none => rw [hm] at h; simp at h
    | some v => simp [effectiveIndex, colMap, combineFirst, hm]
  · intro h; simp [effectiveIndex, colMap, combineFirst, h]
  · intro d hd
    refine ⟨?_, ?_, ?_⟩
    · intro rl hs hlast
      constructor
      · unfold currentIndex; rw [hlast]
      · exact sorted_dateKey_le_getLast rows hs rl hlast
    · intro c hc hc0
      rw [displayWage_of_ne_none d hd, hc]
      show (if c ≠ 0 then odiv (nominalWage b r) (odiv (effectiveIndex d r) (some c))
            else odiv (nominalWage b r) (odiv (effectiveIndex d r) (some 100))) = _
      rw [if_pos hc0]
      exact odiv_odiv_eq_omul_odiv _ _ c
    · intro hor
      rcases hor with h0 | h0
      · rw [displayWage_of_ne_none d hd, h0]
      · rw [displayWage_of_ne_none d hd, h0]
        show (if (0 : ℚ) ≠ 0 then odiv (nominalWage b r) (odiv (effectiveIndex d r) (some 0))
              else odiv (nominalWage b r) (odiv (effectiveIndex d r) (some 100))) = _
        rw [if_neg (by simp)]

/-- Witness for C1: the rebasing formula evaluated on a concrete two-row
table whose last effective monthly-CPI index is 110. -/
theorem deflation_effective_index_and_rebase_witness :
    displayWage Deflator.M_CPI Basis.h36 [sampleOldRow, sampleIdxRow] sampleIdxRow =
      odiv (omul (nominalWage Basis.h36 sampleIdxRow) (some 110))
        (effectiveIndex Deflator.M_CPI sampleIdxRow) :=
  ((deflation_effective_index_and_rebase Basis.h36 [sampleOldRow, sampleIdxRow]
      sampleIdxRow).2.2.2.2 Deflator.M_CPI (by decide)).2.1 110 rfl (by norm_num)

/-- Claim C2: NominalWage is the Hourly_{W}h column of the selected
pre-2024 workweek for rows with Year < 2024 and Hourly_Statutory for rows
with Year ≥ 2024; with deflator None, DisplayWage equals NominalWage. -/
theorem nominal_wage_selection_and_none_roundtrip (b : Basis) (rows : List Row) (r : Row) :
    (r.year < 2024 →
      nominalWage Basis.h36 r = r.hourly36 ∧
      nominalWage Basis.h38 r = r.hourly38 ∧
      nominalWage Basis.h40 r = r.hourly40) ∧
    (2024 ≤ r.year → nominalWage b r = r.hourlyStatutory) ∧
    displayWage Deflator.None b rows r = nominalWage b r := by
  refine ⟨fun h => ⟨?_, ?_, ?_⟩, fun h => ?_, rfl⟩
  · simp [nominalWage, hourlyBasis, h]
  · simp [nominalWage, hourlyBasis, h]
  · simp [nominalWage, hourlyBasis, h]
  · simp [nominalWage, Nat.not_lt.mpr h]

/-- Witness for C2: the 2023 sample row selects its Hourly_36h column. -/
theorem nominal_wage_selection_and_none_roundtrip_witness :
    nominalWage Basis.h36 sampleOldRow = sampleOldRow.hourly36 :=
  ((nominal_wage_selection_and_none_roundtrip Basis.h36 [] sampleOldRow).1
    (by decide)).1

/-- Claim C3: when the "today's purchasing power" branch is taken (the
effective index of the chronologically last row is non-null and non-zero),
the last row's DisplayWage equals its NominalWage exactly. -/
theorem rebase_last_row_identity (d : Deflator) (hd : d ≠ Deflator.None)
    (b : Basis) (rows : List Row) (rl : Row) (hlast : rows.getLast? = some rl)
    (c : ℚ) (hc : effectiveIndex d rl = some c) (hc0 : c ≠ 0) :
    displayWage d b rows rl = nominalWage b rl := by
  have hci : currentIndex d rows = some c := by
    unfold currentIndex; rw [hlast]; exact hc
  rw [displayWage_of_ne_none d hd, hci]
  show (if c ≠ 0 then odiv (nominalWage b rl) (odiv (effectiveIndex d rl) (some c))
        else odiv (nominalWage b rl) (odiv (effectiveIndex d rl) (some 100))) = _
  rw [if_pos hc0, hc]
  exact odiv_cancel_one _ c hc0

/-- Witness for C3: on the concrete two-row table the last row's display
wage equals its nominal wage under the monthly-CPI deflator. -/
theorem rebase_last_row_identity_witness :
    displayWage Deflator.M_CPI Basis.h38 [sampleOldRow, sampleIdxRow] sampleIdxRow =
      nominalWage Basis.h38 sampleIdxRow :=
  rebase_last_row_identity Deflator.M_CPI (by decide) Basis.h38
    [sampleOldRow, sampleIdxRow] sampleIdxRow rfl 110 rfl (by norm_num)

end MWTracker

namespace MWTracker

/-- `df = df.sort_values('Date')` (app.py line 142): the merged table in
ascending chronological order.  The model uses insertion sort; like
pandas' default quicksort it produces some permutation that is ascending
in the sort key. -/
def sortByDate (rows : List Row) : List Row :=
  rows.insertionSort (fun a b => dateKey a ≤ dateKey b)

/-- `df[idx_cols] = df[idx_cols].ffill()` (app.py line 143): one pass over
the rows that forward-fills the four index columns independently, carrying
the most recent non-null value of each column. -/
def ffillRows (c1 c2 c3 c4 : Cell) : List Row → List Row
  | [] => []
  | r :: rs =>
    { r with monthly_cao := combineFirst r.monthly_cao c1,
             monthly_cpi := combineFirst r.monthly_cpi c2,
             yearly_cao := combineFirst r.yearly_cao c3,
             yearly_cpi := combineFirst r.yearly_cpi c4 }
      :: ffillRows (combineFirst r.monthly_cao c1) (combineFirst r.monthly_cpi c2)
          (combineFirst r.yearly_cao c3) (combineFirst r.yearly_cpi c4) rs

/-- The sort-then-ffill tail of `load_data` (app.py lines 140-143). -/
def loadFill (rows : List Row) : List Row :=
  ffillRows none none none none (sortByDate rows)

/-- The most recent non-null value in a list of cells (`none` when the
whole list is null). -/
def lastVal (xs : List Cell) : Cell := (xs.filterMap id).getLast?

lemma lastVal_single (x : Cell) : lastVal [x] = x := by
  cases x <;> rfl

lemma combineFirst_none_right (x : Cell) : combineFirst x none = x := by
  cases x <;> rfl

lemma lastVal_cons_combine (x : Cell) (xs : List Cell) (c : Cell) :
    combineFirst (lastVal (x :: xs)) c = combineFirst (lastVal xs) (combineFirst x c) := by
  cases x with
  | none => rfl
  | some v =>
    have h1 : List.filterMap id (some v :: xs) = v :: List.filterMap id xs := rfl
    rw [lastVal, lastVal, h1]
    cases hfm : xs.filterMap id with
    | nil =>
      simp [combineFirst]
    | cons y ys =>
      rw [List.getLast?_cons_cons]
      cases h2 : (y :: ys).getLast? with
      | none =>
        have hsome := List.getLast?_isSome.mpr (show (y :: ys) ≠ [] by simp)
        rw [h2] at hsome
        simp at hsome
      | some w => rfl

lemma ffillRows_length (c1 c2 c3 c4 : Cell) (l : List Row) :
    (ffillRows c1 c2 c3 c4 l).length = l.length := by
  induction l generalizing c1 c2 c3 c4 with
  | nil => rfl
  | cons r rs ih => simp [ffillRows, ih]

lemma ffillRows_get? (l : List Row) (c1 c2 c3 c4 : Cell) (i : ℕ) (fr : Row)
    (h : (ffillRows c1 c2 c3 c4 l).get? i = some fr) :
    fr.monthly_cao = combineFirst (lastVal ((l.take (i+1)).map Row.monthly_cao)) c1 ∧
    fr.monthly_cpi = combineFirst (lastVal ((l.take (i+1)).map Row.monthly_cpi)) c2 ∧
    fr.yearly_cao = combineFirst (lastVal ((l.take (i+1)).map Row.yearly_cao)) c3 ∧
    fr.yearly_cpi = combineFirst (lastVal ((l.take (i+1)).map Row.yearly_cpi)) c4 := by
  induction l generalizing c1 c2 c3 c4 i with
  | nil => simp [ffillRows] at h
  | cons r rs ih =>
    cases i with
    | zero =>
      simp only [ffillRows, List.get?_cons_zero, Option.some.injEq] at h
      subst h
      simp [List.take, lastVal_single]
    | succ j =>
      simp only [ffillRows, List.get?_cons_succ] at h
      have hrec := ih _ _ _ _ j h
      simp only [List.take, List.map_cons, lastVal_cons_combine]
      exact hrec

/-- Claim C4: the merged table is sorted ascending by Date and each of the
four index columns is then forward-filled independently in chronological
order: each resulting cell is the most recent non-null value of its column
up to and including that row (so a null cell takes the most recent prior
non-null value, and a cell in a column with no prior non-null value stays
null). -/
theorem ffill_chronological_characterization (rows : List Row) :
    (sortByDate rows).Sorted (fun a b => dateKey a ≤ dateKey b) ∧
    List.Perm (sortByDate rows) rows ∧
    (loadFill rows).length = rows.length ∧
    ∀ i fr, (loadFill rows).get? i = some fr →
      fr.monthly_cao = lastVal (((sortByDate rows).take (i+1)).map Row.monthly_cao) ∧
      fr.monthly_cpi = lastVal (((sortByDate rows).take (i+1)).map Row.monthly_cpi) ∧
      fr.yearly_cao = lastVal (((sortByDate rows).take (i+1)).map Row.yearly_cao) ∧
      fr.yearly_cpi = lastVal (((sortByDate rows).take (i+1)).map Row.yearly_cpi) := by
  refine ⟨?_, ?_, ?_, ?_⟩
  · haveI : IsTotal Row (fun a b => dateKey a ≤ dateKey b) :=
      ⟨fun a b => Nat.le_total (dateKey a) (dateKey b)⟩
    haveI : IsTrans Row (fun a b => dateKey a ≤ dateKey b) :=
      ⟨fun _ _ _ hab hbc => le_trans hab hbc⟩
    exact List.sorted_insertionSort _ rows
  · exact List.perm_insertionSort _ rows
  · rw [loadFill, ffillRows_length, sortByDate]
    exact (List.perm_insertionSort _ rows).length_eq
  · intro i fr h
    have hrec := ffillRows_get? (sortByDate rows) none none none none i fr h
    simpa [combineFirst_none_right] using hrec

/-- Concrete 2025-July row with all index columns null, for witnesses. -/
def sampleNullRow : Row :=
  { year := 2025, period := Period.July, age := "21+", isAdult := true,
    hourly36 := none, hourly38 := none, hourly40 := none,
    hourlyStatutory := some 14,
    monthly_cao := none, monthly_cpi := none,
    yearly_cao := none, yearly_cpi := none }

/-- The row `sampleNullRow` becomes after forward fill behind
`sampleOldRow` (only its null index cells are replaced). -/
def sampleFilledRow : Row :=
  { sampleNullRow with monthly_cpi := some 100,
                       yearly_cao := some 99, yearly_cpi := some 98 }

/-- Witness for C4: the second row of the concrete filled table carries
the most recent non-null value of each index column. -/
theorem ffill_chronological_characterization_witness :
    sampleFilledRow.monthly_cao =
      lastVal (((sortByDate [sampleOldRow, sampleNullRow]).take 2).map Row.monthly_cao) ∧
    sampleFilledRow.monthly_cpi =
      lastVal (((sortByDate [sampleOldRow, sampleNullRow]).take 2).map Row.monthly_cpi) ∧
    sampleFilledRow.yearly_cao =
      lastVal (((sortByDate [sampleOldRow, sampleNullRow]).take 2).map Row.yearly_cao) ∧
    sampleFilledRow.yearly_cpi =
      lastVal (((sortByDate [sampleOldRow, sampleNullRow]).take 2).map Row.yearly_cpi) :=
  (ffill_chronological_characterization [sampleOldRow, sampleNullRow]).2.2.2 1
    sampleFilledRow rfl

end MWTracker

namespace MWTracker

/-- `STAFFEL_PRE_2017` (create_mw_archive.py line 12): the fixed youth
percentage table of the 23+ regime, in source order. -/
def STAFFEL_PRE_2017 : List (String × ℚ) :=
  [("22", 85/100), ("21", 725/1000), ("20", 615/1000), ("19", 525/1000),
   ("18", 455/1000), ("17", 395/1000), ("16", 345/1000), ("15", 30/100)]

/-- `STAFFEL_POST_2017` (create_mw_archive.py line 13): the fixed youth
percentage table of the 22+ regime, in source order. -/
def STAFFEL_POST_2017 : List (String × ℚ) :=
  [("21", 85/100), ("20", 70/100), ("19", 55/100), ("18", 475/1000),
   ("17", 395/1000), ("16", 345/1000), ("15", 30/100)]

/-- `is_pre_july_2017 = (year < 2017) or (year == 2017 and month == 1)`
(create_mw_archive.py line 38). -/
def is_pre_july_2017 (year month : ℕ) : Bool :=
  decide (year < 2017) || (year == 2017 && month == 1)

/-- The adult age label picked together with the staffel table
(create_mw_archive.py line 39). -/
def histAdultAge (year month : ℕ) : String :=
  if is_pre_july_2017 year month then "23+" else "22+"

/-- The staffel table picked together with the adult age label
(create_mw_archive.py line 39). -/
def staffelFor (year month : ℕ) : List (String × ℚ) :=
  if is_pre_july_2017 year month then STAFFEL_PRE_2017 else STAFFEL_POST_2017

/-- Python `round(x, 2)` on the exact rational value: round half-up to a
multiple of 1/100 (the half-cent tie cases where Python's bankers'
rounding could differ do not occur in any statement below). -/
def round2 (x : ℚ) : ℚ := (round (x * 100) : ℤ) / 100

/-- `period = "January" if month == 1 else "July"`
(create_mw_archive.py line 34). -/
def periodOfMonth (month : ℕ) : Period :=
  if month = 1 then Period.January else Period.July

/-- A row written to `minimum_wage_archive.csv` by `create_archive`. -/
structure ArchiveRow where
  year : ℕ
  period : Period
  age : String
  isAdult : Bool
  hourly36 : Cell
  hourly38 : Cell
  hourly40 : Cell
  hourlyStatutory : Cell
deriving DecidableEq

/-- The rows appended for one historical input line (year, month, weekly
adult nominal wage): the adult row then one youth row per staffel entry
(create_mw_archive.py lines 34-49). -/
def histRows (year month : ℕ) (nominal : ℚ) : List ArchiveRow :=
  { year := year, period := periodOfMonth month, age := histAdultAge year month,
    isAdult := true,
    hourly36 := some (round2 (nominal / 36)), hourly38 := some (round2 (nominal / 38)),
    hourly40 := some (round2 (nominal / 40)), hourlyStatutory := none } ::
  (staffelFor year month).map (fun ap =>
    { year := year, period := periodOfMonth month, age := ap.1, isAdult := false,
      hourly36 := some (round2 (nominal * ap.2 / 36)),
      hourly38 := some (round2 (nominal * ap.2 / 38)),
      hourly40 := some (round2 (nominal * ap.2 / 40)),
      hourlyStatutory := none })

/-- The `is_adult` flag of the 2019-2023 scraped branch
(create_mw_archive.py lines 71-73). -/
def scrapedIsAdult (year : ℕ) (p : Period) (age : String) : Bool :=
  (year == 2019 && decide (p = Period.January) && age == "22+") ||
  (year == 2019 && decide (p = Period.July) && age == "21+") ||
  (decide (2019 < year) && age == "21+")

/-- The `IsAdult` flag of the 2024+ scraped branch:
`'IsAdult': (age == '21+')` (create_mw_archive.py line 90). -/
def post2024IsAdult (age : String) : Bool := age == "21+"

lemma is_pre_july_2017_iff (year month : ℕ) :
    is_pre_july_2017 year month = true ↔ (year < 2017 ∨ (year = 2017 ∧ month = 1)) := by
  simp [is_pre_july_2017]

/-- Claim C5: rows dated before July 2017 carry adult threshold "23+";
rows from July 2017 up to and including January 2019 carry "22+"; rows
from July 2019 onward carry "21+" — via the historical builder's age label
for pre-2019 rows and the scraped branches' IsAdult flags from 2019 on. -/
theorem adult_threshold_partition (year month : ℕ) (p : Period) (age : String)
    (hm : month = p.month) :
    (year < 2019 →
      ((year < 2017 ∨ (year = 2017 ∧ month < 7)) → histAdultAge year month = "23+") ∧
      (¬(year < 2017 ∨ (year = 2017 ∧ month < 7)) → histAdultAge year month = "22+")) ∧
    (2019 ≤ year → year < 2024 →
      (scrapedIsAdult year p age = true ↔
        age = if year = 2019 ∧ p = Period.January then "22+" else "21+")) ∧
    (2024 ≤ year → (post2024IsAdult age = true ↔ age = "21+")) := by
  have hm17 : month = 1 ∨ month = 7 := by
    cases p <;> simp [Period.month] at hm <;> omega
  refine ⟨fun _ => ⟨fun hd => ?_, fun hd => ?_⟩, fun hy1 _ => ?_, fun _ => ?_⟩
  · cases hb : is_pre_july_2017 year month with
    | false =>
      exfalso
      have hcon : ¬(year < 2017 ∨ (year = 2017 ∧ month = 1)) := by
        intro h
        have := (is_pre_july_2017_iff year month).mpr h
        rw [hb] at this
        exact Bool.false_ne_true this
      omega
    | true => simp [histAdultAge, hb]
  · cases hb : is_pre_july_2017 year month with
    | false => simp [histAdultAge, hb]
    | true =>
      exfalso
      have := (is_pre_july_2017_iff year month).mp hb
      omega
  · rcases eq_or_lt_of_le hy1 with he | hgt
    · subst he
      cases p <;> simp [scrapedIsAdult]
    · have hne : year ≠ 2019 := by omega
      have hb : (year == 2019) = false := by simp [hne]
      cases p <;> simp [scrapedIsAdult, hb, hgt, hne]
  · simp [post2024IsAdult]

/-- Witness for C5: a January 2016 historical row gets threshold "23+". -/
theorem adult_threshold_partition_witness : histAdultAge 2016 1 = "23+" :=
  ((adult_threshold_partition 2016 1 Period.January "21+" rfl).1 (by omega)).1
    (by omega)

end MWTracker

namespace MWTracker

/-- The youth row that `create_archive` appends for age 15 when processing
the January 2016 historical input with weekly adult wage 360. -/
def youthRow15 : ArchiveRow :=
  { year := 2016, period := Period.January, age := "15", isAdult := false,
    hourly36 := some (round2 (360 * ((30:ℚ)/100) / 36)),
    hourly38 := some (round2 (360 * ((30:ℚ)/100) / 38)),
    hourly40 := some (round2 (360 * ((30:ℚ)/100) / 40)),
    hourlyStatutory := none }

lemma mem15_staffel : ("15", (30:ℚ)/100) ∈ staffelFor 2016 1 := by
  simp [staffelFor, is_pre_july_2017, STAFFEL_PRE_2017]

lemma youthRow15_mem : youthRow15 ∈ histRows 2016 1 360 :=
  List.mem_cons_of_mem _ (List.mem_map_of_mem _ mem15_staffel)

/-- Claim C6 counterexample: for the January 2016 input with weekly adult
wage 360 and staffel age "15" (percentage 0.30), the stored youth wages
are the rounded hourly values 3.00 / 2.84 / 2.70, none of which equals
round(adult_weekly_wage × staffel_pct, 2) = 108 — the code rounds after
dividing by the workweek, it never stores round(weekly × pct, 2). -/
theorem youth_wage_round_claim_counterexample :
    ("15", (30:ℚ)/100) ∈ staffelFor 2016 1 ∧
    youthRow15 ∈ histRows 2016 1 360 ∧
    youthRow15.hourly36 = some 3 ∧
    youthRow15.hourly38 = some (284/100) ∧
    youthRow15.hourly40 = some (27/10) ∧
    round2 (360 * ((30:ℚ)/100)) = 108 ∧
    youthRow15.hourly36 ≠ some (round2 (360 * ((30:ℚ)/100))) ∧
    youthRow15.hourly38 ≠ some (round2 (360 * ((30:ℚ)/100))) ∧
    youthRow15.hourly40 ≠ some (round2 (360 * ((30:ℚ)/100))) := by
  have e36 : round2 ((360:ℚ) * (30/100) / 36) = 3 := by norm_num [round2]
  have e38 : round2 ((360:ℚ) * (30/100) / 38) = 284/100 := by
    norm_num [round2, round_eq]
  have e40 : round2 ((360:ℚ) * (30/100) / 40) = 27/10 := by
    norm_num [round2, round_eq]
  have e108 : round2 ((360:ℚ) * (30/100)) = 108 := by norm_num [round2]
  have h36 : youthRow15.hourly36 = some (3:ℚ) := congrArg some e36
  have h38 : youthRow15.hourly38 = some ((284:ℚ)/100) := congrArg some e38
  have h40 : youthRow15.hourly40 = some ((27:ℚ)/10) := congrArg some e40
  refine ⟨mem15_staffel, youthRow15_mem, h36, h38, h40, e108, ?_, ?_, ?_⟩
  · rw [h36, e108]
    intro h
    rw [Option.some.injEq] at h
    norm_num at h
  · rw [h38, e108]
    intro h
    rw [Option.some.injEq] at h
    norm_num at h
  · rw [h40, e108]
    intro h
    rw [Option.some.injEq] at h
    norm_num at h

/-- Claim C6 (amended): every youth row generated for a historical input
(year, month, weekly adult wage) carries the hourly wages
round(weekly × pct / W, 2) for W ∈ {36, 38, 40}, where pct is the row's
percentage in the staffel table selected by the pre or post July 2017
regime. -/
theorem youth_wage_staffel_amended (year month : ℕ) (nominal : ℚ)
    (r : ArchiveRow) (hr : r ∈ histRows year month nominal)
    (hy : r.isAdult = false) :
    ∃ p : ℚ, (r.age, p) ∈ staffelFor year month ∧
      r.hourly36 = some (round2 (nominal * p / 36)) ∧
      r.hourly38 = some (round2 (nominal * p / 38)) ∧
      r.hourly40 = some (round2 (nominal * p / 40)) ∧
      r.hourlyStatutory = none := by
  rcases List.mem_cons.mp hr with hadult | hmap
  · subst hadult
    simp at hy
  · obtain ⟨ap, hap, heq⟩ := List.mem_map.mp hmap
    subst heq
    exact ⟨ap.2, by simpa using hap, rfl, rfl, rfl, rfl⟩

/-- Witness for the amended C6: the age-15 youth row of the concrete
January 2016 input carries the rounded hourly wages for its staffel
percentage. -/
theorem youth_wage_staffel_amended_witness :
    ∃ p : ℚ, (youthRow15.age, p) ∈ staffelFor 2016 1 ∧
      youthRow15.hourly36 = some (round2 (360 * p / 36)) ∧
      youthRow15.hourly38 = some (round2 (360 * p / 38)) ∧
      youthRow15.hourly40 = some (round2 (360 * p / 40)) ∧
      youthRow15.hourlyStatutory = none :=
  youth_wage_staffel_amended 2016 1 360 youthRow15 youthRow15_mem rfl

end MWTracker

namespace MWTracker

/-- The first replace of `clean_currency` (create_mw_archive.py line 17):
`.replace('â‚¬', '')`.  The pattern in the source file is the three-char
sequence U+00E2 U+201A U+00AC (the UTF-8 bytes of '€' mis-decoded as
cp1252), not the euro sign itself; occurrences are removed left to right,
exactly like Python's `str.replace`. -/
def stripEuro : List Char → List Char
  | [] => []
  | 'â' :: '‚' :: '¬' :: rest => stripEuro rest
  | c :: rest => c :: stripEuro rest

/-- The replace chain of `clean_currency` (create_mw_archive.py line 17):
strip the mojibake euro sequence, drop spaces, drop dots, then turn the
decimal comma into a point. -/
def pyCleanChars (cs : List Char) : List Char :=
  (((stripEuro cs).filter (fun c => c ≠ ' ')).filter (fun c => c ≠ '.')).map
    (fun c => if c = ',' then '.' else c)

/-- Numeric value of a digit string (most significant digit first). -/
def digitsVal (cs : List Char) : ℕ :=
  cs.foldl (fun acc c => acc * 10 + (c.toNat - '0'.toNat)) 0

/-- Python `float()` on a sign-stripped decimal literal: an integer part,
optionally a point and a fractional part, at least one digit in total;
anything else fails. -/
def pyFloatBody (sgn : ℚ) (body : List Char) : Option ℚ :=
  let ip := body.takeWhile Char.isDigit
  let rest := body.dropWhile Char.isDigit
  if rest = [] then
    if ip = [] then none else some (sgn * (digitsVal ip : ℚ))
  else if rest.head? = some '.' ∧ rest.tail.all Char.isDigit ∧ ¬(ip = [] ∧ rest.tail = []) then
    some (sgn * ((digitsVal ip : ℚ) + (digitsVal rest.tail : ℚ) / (10:ℚ) ^ rest.tail.length))
  else none

/-- Python `float()` on the strings the replace chain can produce: plain
decimal literals with an optional leading sign (the chain has already
removed every space, so the exponent, infinity and whitespace forms float
accepts elsewhere cannot reach it with other shapes here). -/
def pyFloat? (cs : List Char) : Option ℚ :=
  if cs.head? = some '-' then pyFloatBody (-1) cs.tail
  else if cs.head? = some '+' then pyFloatBody 1 cs.tail
  else pyFloatBody 1 cs

/-- `clean_currency` (create_mw_archive.py lines 15-19) on a string input:
empty string to null, then the replace chain, then `float()` with the
`try/except` turning a parse failure into null. -/
def clean_currency (s : String) : Option ℚ :=
  if s = "" then none else pyFloat? (pyCleanChars s.data)

lemma stripEuro_eq_self (cs : List Char) (h : ∀ c ∈ cs, c ≠ 'â') :
    stripEuro cs = cs := by
  induction cs with
  | nil => rfl
  | cons c rest ih =>
    have hc : c ≠ 'â' := h c (List.mem_cons_self _ _)
    have hrest : ∀ x ∈ rest, x ≠ 'â' := fun x hx => h x (List.mem_cons_of_mem _ hx)
    rw [stripEuro.eq_def]
    split
    · next heq => exact absurd heq (by simp)
    · next rest2 heq =>
      injection heq with h1 _
      exact absurd h1 hc
    · next x c2 rest2 hno heq =>
      injection heq with h1 h2
      subst h1
      subst h2
      exact congrArg _ (ih hrest)

lemma mapComma_eq_self (cs : List Char) (h : ∀ c ∈ cs, c.isDigit = true) :
    cs.map (fun c => if c = ',' then '.' else c) = cs := by
  induction cs with
  | nil => rfl
  | cons c rest ih =>
    have hc := h c (List.mem_cons_self _ _)
    have hne : c ≠ ',' := by
      intro he
      rw [he] at hc
      exact absurd hc (by decide)
    simp only [List.map_cons, if_neg hne]
    exact congrArg _ (ih fun x hx => h x (List.mem_cons_of_mem _ hx))

lemma takeWhile_digits_eq_self (cs : List Char) (h : ∀ c ∈ cs, c.isDigit = true) :
    cs.takeWhile Char.isDigit = cs := by
  induction cs with
  | nil => rfl
  | cons c rest ih =>
    rw [List.takeWhile_cons, if_pos (h c (List.mem_cons_self _ _))]
    exact congrArg _ (ih fun x hx => h x (List.mem_cons_of_mem _ hx))

lemma dropWhile_digits_eq_nil (cs : List Char) (h : ∀ c ∈ cs, c.isDigit = true) :
    cs.dropWhile Char.isDigit = [] := by
  induction cs with
  | nil => rfl
  | cons c rest ih =>
    rw [List.dropWhile_cons, if_pos (h c (List.mem_cons_self _ _))]
    exact ih fun x hx => h x (List.mem_cons_of_mem _ hx)

lemma pyFloat?_all_digits (cs : List Char) (hne : cs ≠ [])
    (h : ∀ c ∈ cs, c.isDigit = true) : pyFloat? cs = some (digitsVal cs : ℚ) := by
  cases cs with
  | nil => exact absurd rfl hne
  | cons d ds =>
    have hd := h d (List.mem_cons_self _ _)
    have hm : d ≠ '-' := by
      intro he
      rw [he] at hd
      exact absurd hd (by decide)
    have hp : d ≠ '+' := by
      intro he
      rw [he] at hd
      exact absurd hd (by decide)
    rw [pyFloat?, if_neg (by simp [hm]), if_neg (by simp [hp]), pyFloatBody]
    simp [takeWhile_digits_eq_self _ h, dropWhile_digits_eq_nil _ h]

/-- Claim C7: `clean_currency` only strips the mojibake euro sequence, so
the spec's documented example "€ 1.234,56" (with a real euro sign, which
`float()` then rejects) comes out null instead of 1234.56; the remaining
parts of the claim hold: the mojibake form gives 1234.56, "13,27" gives
13.27, and the empty string and non-numeric input give null without an
error. -/
theorem clean_currency_euro_mojibake :
    clean_currency "€ 1.234,56" = none ∧
    clean_currency "â‚¬ 1.234,56" = some (123456/100) ∧
    clean_currency "13,27" = some (1327/100) ∧
    clean_currency "" = none ∧
    clean_currency "abc" = none := by
  refine ⟨by rfl, ?_, ?_, by rfl, by rfl⟩
  · have h1 : clean_currency "â‚¬ 1.234,56" =
        pyFloat? ['1', '2', '3', '4', '.', '5', '6'] := by
      rw [clean_currency, if_neg (by decide)]
      rfl
    rw [h1, pyFloat?, if_neg (by decide), if_neg (by decide), pyFloatBody]
    have ht : List.takeWhile Char.isDigit ['1', '2', '3', '4', '.', '5', '6']
        = ['1', '2', '3', '4'] := by rfl
    have hd : List.dropWhile Char.isDigit ['1', '2', '3', '4', '.', '5', '6']
        = ['.', '5', '6'] := by rfl
    rw [ht, hd]
    rw [if_neg (by decide), if_pos (by decide)]
    simp only [List.tail_cons, List.length_cons, List.length_nil]
    rw [show digitsVal ['1', '2', '3', '4'] = 1234 from rfl,
        show digitsVal ['5', '6'] = 56 from rfl]
    norm_num
  · have h1 : clean_currency "13,27" = pyFloat? ['1', '3', '.', '2', '7'] := by
      rw [clean_currency, if_neg (by decide)]
      rfl
    rw [h1, pyFloat?, if_neg (by decide), if_neg (by decide), pyFloatBody]
    have ht : List.takeWhile Char.isDigit ['1', '3', '.', '2', '7'] = ['1', '3'] := by rfl
    have hd : List.dropWhile Char.isDigit ['1', '3', '.', '2', '7'] = ['.', '2', '7'] := by rfl
    rw [ht, hd]
    rw [if_neg (by decide), if_pos (by decide)]
    simp only [List.tail_cons, List.length_cons, List.length_nil]
    rw [show digitsVal ['1', '3'] = 13 from rfl, show digitsVal ['2', '7'] = 27 from rfl]
    norm_num

/-- Claim C10: on a non-empty input made of digits and at least one
decimal point (and no comma), `clean_currency` strips the points as
thousands separators before parsing, so the result is the concatenated
digits as an integer-valued number, not the point-decimal reading. -/
theorem clean_currency_dot_stripped (s : String) (hne : s ≠ "")
    (hall : ∀ c ∈ s.data, c.isDigit = true ∨ c = '.')
    (_hdot : '.' ∈ s.data)
    (hdig : ∃ c ∈ s.data, c.isDigit = true) :
    clean_currency s = some ((digitsVal (s.data.filter Char.isDigit) : ℕ) : ℚ) := by
  have h1 : stripEuro s.data = s.data := by
    apply stripEuro_eq_self
    intro c hc he
    rcases hall c hc with h | h
    · rw [he] at h
      exact absurd h (by decide)
    · rw [he] at h
      exact absurd h (by decide)
  have h2 : (s.data).filter (fun c => c ≠ ' ') = s.data := by
    rw [List.filter_eq_self]
    intro a ha
    rcases hall a ha with h | h
    · simp only [ne_eq, decide_eq_true_eq]
      intro he
      rw [he] at h
      exact absurd h (by decide)
    · rw [h]
      decide
  have h3 : (s.data).filter (fun c => c ≠ '.') = s.data.filter Char.isDigit := by
    apply List.filter_congr
    intro a ha
    rcases hall a ha with h | h
    · have hne' : a ≠ '.' := by
        intro he
        rw [he] at h
        exact absurd h (by decide)
      simp [hne', h]
    · rw [h]
      decide
  have hfilter_all : ∀ c ∈ s.data.filter Char.isDigit, c.isDigit = true :=
    fun c hc => (List.mem_filter.mp hc).2
  have hfilter_ne : s.data.filter Char.isDigit ≠ [] := by
    obtain ⟨c, hc, hcd⟩ := hdig
    intro hnil
    have hm : c ∈ s.data.filter Char.isDigit := List.mem_filter.mpr ⟨hc, hcd⟩
    rw [hnil] at hm
    simp at hm
  have hmap : (s.data.filter Char.isDigit).map (fun c => if c = ',' then '.' else c)
      = s.data.filter Char.isDigit := mapComma_eq_self _ hfilter_all
  rw [clean_currency, if_neg hne, pyCleanChars, h1, h2, h3, hmap]
  exact pyFloat?_all_digits _ hfilter_ne hfilter_all

/-- Witness for C10: "13.27" parses to the integer-valued 1327, not 13.27. -/
theorem clean_currency_dot_stripped_witness :
    clean_currency "13.27" = some ((digitsVal (("13.27").data.filter Char.isDigit) : ℕ) : ℚ) ∧
    ((digitsVal (("13.27").data.filter Char.isDigit) : ℕ) : ℚ) = 1327 :=
  ⟨clean_currency_dot_stripped "13.27" (by decide) (by decide) (by decide) (by decide),
   by rw [show digitsVal (("13.27").data.filter Char.isDigit) = 1327 from rfl]; norm_num⟩

end MWTracker

namespace MWTracker

/-- The growth calculator percentage (app.py line 376):
`pct = (diff / val1) * 100 if val1 != 0 else 0` with `diff = val2 - val1`.
A NaN start value compares unequal to 0 in Python, so the formula branch
is taken and the NaN propagates. -/
def calcPct (v1 v2 : Cell) : Cell :=
  if v1 ≠ some 0 then omul (odiv (osub v2 v1) v1) (some 100) else some 0

/-- Claim C8 counterexample: a null start value takes the `val1 != 0`
branch, so the computed growth is null (NaN), not the 0% sentinel the
claim promises for a null divisor. -/
theorem growth_pct_null_start_counterexample :
    calcPct none (some 13) = none ∧ calcPct none (some 13) ≠ some 0 := by
  have h0 : calcPct none (some 13) = none := rfl
  refine ⟨h0, ?_⟩
  rw [h0]
  simp

/-- Claim C8 (amended): a zero start value yields the 0% sentinel; a null
start value yields a null percentage (NaN propagates, still no arithmetic
fault); otherwise pct = (end − start) / start × 100. -/
theorem growth_pct_amended (v2 : Cell) (a b : ℚ) :
    calcPct (some 0) v2 = some 0 ∧
    calcPct none v2 = none ∧
    (a ≠ 0 → calcPct (some a) (some b) = some ((b - a) / a * 100)) := by
  refine ⟨?_, ?_, fun ha => ?_⟩
  · rw [calcPct, if_neg (by simp)]
  · cases v2 <;> rfl
  · rw [calcPct, if_pos (by simp [ha])]
    rfl

/-- Witness for the amended C8: the spec §8 example, hourly 12.00 at the
start and 13.27 at the end. -/
theorem growth_pct_amended_witness :
    calcPct (some 12) (some (1327/100)) = some ((1327/100 - 12) / 12 * 100) :=
  (growth_pct_amended (some 5) 12 (1327/100)).2.2 (by norm_num)

/-- `years = range(START_YEAR, pd.Timestamp.now().year + 2)`
(fetch_indices.py line 94), parameterised by the configured start year and
the current year; Python's `range` excludes its upper bound. -/
def skeletonYears (startYear curYear : ℕ) : List ℕ :=
  List.range' startYear (curYear + 2 - startYear)

/-- The dense (Year, Period) skeleton (fetch_indices.py lines 95-100): one
January and one July entry appended per year. -/
def skeleton (startYear curYear : ℕ) : List (ℕ × Period) :=
  (skeletonYears startYear curYear).flatMap
    (fun y => [(y, Period.January), (y, Period.July)])

/-- Claim C9 counterexample: with the configured start year 2002 and
current year 2025 the skeleton stops at 2026 = current year + 1; it has no
row for 2027 = current year + 2, which the claim's range includes. -/
theorem skeleton_range_counterexample :
    (2027, Period.January) ∉ skeleton 2002 2025 ∧
    (2026, Period.January) ∈ skeleton 2002 2025 ∧
    (2026, Period.July) ∈ skeleton 2002 2025 := by
  refine ⟨by decide, by decide, by decide⟩

lemma count_year_pairs (ys : List ℕ) (y : ℕ) (p : Period) :
    (ys.flatMap (fun z => [(z, Period.January), (z, Period.July)])).count (y, p)
      = ys.count y := by
  induction ys with
  | nil => rfl
  | cons z t ih =>
    rw [List.flatMap_cons, List.count_append, ih]
    by_cases hz : z = y
    · subst hz
      cases p <;> simp [List.count_cons, Nat.add_comm]
    · cases p <;> simp [List.count_cons, hz, Ne.symm hz]

/-- Claim C9 (amended): the skeleton contains exactly one January row and
one July row for every year from the configured start year through the
current year + 1, and no rows for any other year. -/
theorem skeleton_dense_count (startYear curYear y : ℕ) (p : Period) :
    (skeleton startYear curYear).count (y, p) =
      if startYear ≤ y ∧ y ≤ curYear + 1 then 1 else 0 := by
  rw [skeleton, count_year_pairs, skeletonYears]
  by_cases h : startYear ≤ y ∧ y ≤ curYear + 1
  · rw [if_pos h]
    exact List.count_eq_one_of_mem (List.nodup_range' _ _)
      (List.mem_range'_1.mpr ⟨h.1, by omega⟩)
  · rw [if_neg h]
    apply List.count_eq_zero_of_not_mem
    rw [List.mem_range'_1]
    omega

end MWTracker
